import Mathlib

/-
  Shallow embedding of the Coherence Loop controller (src/coherence/loop.ts)
  and its deterministic simulation harness, together with the LCG random
  generator and horizon helper from the simulation/invariants modules.

  Conventions used throughout:
  * JavaScript numbers are modelled as exact rationals.
  * The horizon H, which the source sets to Infinity when margin is not
    eroding, is an Option: none stands for +Infinity, some q for a finite q.
  * Sample histories and the accumulating trace/failure arrays are kept
    most-recent-first (a cons replaces an array push); the TypeScript arrays
    are the reverses of these lists, and the final simulation result
    reverses them back into chronological order.
  * Partial parameter maps (Partial of CouplingParams in the source) are
    structures of Option fields: none means the key is absent.
-/

namespace Coherence

/-- clamp01 from loop.ts: Math.max(0, Math.min(1, x)). -/
def clamp01 (x : ℚ) : ℚ := max 0 (min 1 x)

/-- JavaScript Math.sign on a rational: 1, -1 or 0. -/
def jsSign (x : ℚ) : ℚ := if 0 < x then 1 else if x < 0 then -1 else 0

/-- CouplingParams from loop.ts. -/
structure CouplingParams where
  batchSize : ℚ
  concurrency : ℚ
  redundancy : ℚ
  paceMs : ℚ
deriving DecidableEq, Repr

/-- A Partial of CouplingParams: each key may be absent. -/
structure OptParams where
  batchSize : Option ℚ
  concurrency : Option ℚ
  redundancy : Option ℚ
  paceMs : Option ℚ
deriving DecidableEq, Repr

/-- CoherenceState from loop.ts; H = none models H = Infinity. -/
structure CoherenceState where
  M : ℚ
  V : ℚ
  R : ℚ
  H : Option ℚ
deriving DecidableEq, Repr

/-- CoherenceConfig from loop.ts. -/
structure CoherenceConfig where
  Hmin : ℚ
  maxDelta : OptParams
  floors : OptParams
  ceilings : OptParams
deriving DecidableEq, Repr

/-- Sample from loop.ts (the same shape as FieldSample in types.ts). -/
structure Sample where
  t : ℚ
  latencyP50 : ℚ
  latencyP95 : ℚ
  latencyP99 : ℚ
  errRate : ℚ
  queueDepth : ℚ
  queueSlope : ℚ
  corrSpike : Option ℚ
deriving DecidableEq, Repr

/-- The comparison state.H < x, where H may be Infinity (none):
Infinity < x is false in JavaScript. -/
def hLtB (h? : Option ℚ) (x : ℚ) : Bool :=
  match h? with
  | none => false
  | some h => decide (h < x)

/-- The comparison state.H >= x, where H may be Infinity (none):
Infinity >= x is true in JavaScript. -/
def hGeB (h? : Option ℚ) (x : ℚ) : Bool :=
  match h? with
  | none => true
  | some h => decide (x ≤ h)

/-- sense from loop.ts: push the sample, evicting the oldest entry when the
history exceeds historySize.  With the most-recent-first representation this
is a cons followed by a take. -/
def sense (s : Sample) (history : List Sample) (historySize : Nat) : List Sample :=
  (s :: history).take historySize

/-- estimate from loop.ts.  The history is most-recent-first, so the two
most recent samples b (latest) and a (previous) are the first two entries.
With fewer than two samples the neutral default is returned. -/
def estimate (history : List Sample) : CoherenceState :=
  match history with
  | b :: a :: _ =>
    let dt := max (1/1000000) ((b.t - a.t) / 1000)
    let tail := max 0 (b.latencyP99 - b.latencyP50)
    let err := b.errRate
    let M := clamp01 (1 / (1 + (5/100) * tail + 50 * err))
    let prevTail := max 0 (a.latencyP99 - a.latencyP50)
    let prevM := clamp01 (1 / (1 + (5/100) * prevTail + 50 * a.errRate))
    let V := (M - prevM) / dt
    let heat := max 0 b.queueSlope + (b.corrSpike.getD 0)
    let R := clamp01 (1 / (1 + 2 * heat))
    let H := if V < 0 then some ((M / max (1/1000000) |V|) * max (1/5) R) else none
    ⟨M, V, R, H⟩
  | _ => ⟨1, 0, 1, none⟩

/-- One key of damp from loop.ts: when maxDelta holds a limit for this key,
clamp the proposed move to at most that limit around prev. -/
def dampField (prev next : ℚ) (lim? : Option ℚ) : ℚ :=
  match lim? with
  | none => next
  | some lim => if |next - prev| > lim then prev + jsSign (next - prev) * lim else next

/-- damp from loop.ts, applied key by key (the keys are independent, so the
iteration order over Object.keys does not matter). -/
def damp (prev next : CouplingParams) (maxDelta : OptParams) : CouplingParams :=
  { batchSize := dampField prev.batchSize next.batchSize maxDelta.batchSize
    concurrency := dampField prev.concurrency next.concurrency maxDelta.concurrency
    redundancy := dampField prev.redundancy next.redundancy maxDelta.redundancy
    paceMs := dampField prev.paceMs next.paceMs maxDelta.paceMs }

/-- One key of bound from loop.ts: clamp below by the floor when present,
then above by the ceiling when present. -/
def boundField (v : ℚ) (f? c? : Option ℚ) : ℚ :=
  let v1 := match f? with
    | none => v
    | some f => max f v
  match c? with
  | none => v1
  | some c => min c v1

/-- bound from loop.ts, applied key by key. -/
def bound (x : CouplingParams) (floors ceilings : OptParams) : CouplingParams :=
  { batchSize := boundField x.batchSize floors.batchSize ceilings.batchSize
    concurrency := boundField x.concurrency floors.concurrency ceilings.concurrency
    redundancy := boundField x.redundancy floors.redundancy ceilings.redundancy
    paceMs := boundField x.paceMs floors.paceMs ceilings.paceMs }

/-- adapt from loop.ts: couple down when H < Hmin, then damp, then bound. -/
def adapt (cfg : CoherenceConfig) (state : CoherenceState) (c : CouplingParams) :
    CouplingParams :=
  let next : CouplingParams :=
    if hLtB state.H cfg.Hmin then
      { batchSize := max 1 (((c.batchSize / 2).floor : ℤ) : ℚ)
        concurrency := max 1 (((c.concurrency / 2).floor : ℤ) : ℚ)
        redundancy := c.redundancy + 1/10
        paceMs := c.paceMs + 5 }
    else c
  bound (damp c next cfg.maxDelta) cfg.floors cfg.ceilings

/-- The state held by a constructed CoherenceLoop instance. -/
structure CoherenceLoopState where
  cfg : CoherenceConfig
  historySize : Nat
  history : List Sample
deriving DecidableEq, Repr

/-- The CoherenceLoop constructor from loop.ts.  The source constructor can
in principle throw, so construction is modelled as an Except; the body only
stores the config and history size and performs no validation, so it always
returns ok. -/
def createCoherenceLoop (cfg : CoherenceConfig) (historySize : Nat) :
    Except String CoherenceLoopState :=
  .ok ⟨cfg, historySize, []⟩

/-- An invalid configuration in the sense of the specification: some
parameter has floor greater than ceiling, or some maxDelta is negative. -/
def configInvalid (cfg : CoherenceConfig) : Bool :=
  (match cfg.floors.batchSize, cfg.ceilings.batchSize with
   | some f, some c => decide (c < f)
   | _, _ => false) ||
  (match cfg.floors.concurrency, cfg.ceilings.concurrency with
   | some f, some c => decide (c < f)
   | _, _ => false) ||
  (match cfg.floors.redundancy, cfg.ceilings.redundancy with
   | some f, some c => decide (c < f)
   | _, _ => false) ||
  (match cfg.floors.paceMs, cfg.ceilings.paceMs with
   | some f, some c => decide (c < f)
   | _, _ => false) ||
  (match cfg.maxDelta.batchSize with
   | some m => decide (m < 0)
   | none => false) ||
  (match cfg.maxDelta.concurrency with
   | some m => decide (m < 0)
   | none => false) ||
  (match cfg.maxDelta.redundancy with
   | some m => decide (m < 0)
   | none => false) ||
  (match cfg.maxDelta.paceMs with
   | some m => decide (m < 0)
   | none => false)

/-- computeHorizonSec from the invariants module: Infinity (none) when the
drift is nonnegative, otherwise margin over absolute drift scaled by the
effective reserve. -/
def computeHorizonSec (margin drift reserve minReserve : ℚ) : Option ℚ :=
  if 0 ≤ drift then none
  else some (margin / max (1/1000000) |drift| * max minReserve (clamp01 reserve))

/-! ### The Lcg pseudorandom generator of the simulation module -/

/-- The Lcg state update: state = (1664525 * state + 1013904223) >>> 0. -/
def lcgStep (s : Nat) : Nat := (1664525 * s + 1013904223) % 2 ^ 32

/-- The Lcg constructor coerces the seed with seed >>> 0; for a natural
number seed that is reduction modulo 2^32. -/
def lcgInit (seed : Nat) : Nat := seed % 2 ^ 32

/-- The internal Lcg state after k calls of next() starting from a seed. -/
def lcgState (seed k : Nat) : Nat := lcgStep^[k] (lcgInit seed)

/-- The value returned by call number k+1 of next(): the state is updated
first and the new state is divided by 0xffffffff = 2^32 - 1. -/
def lcgValue (seed k : Nat) : ℚ := (lcgState seed (k + 1) : ℚ) / 4294967295

/-- The value returned by call number k+1 of nextSigned(scale):
(next() - 0.5) * 2 * scale. -/
def lcgSigned (seed k : Nat) (scale : ℚ) : ℚ := (lcgValue seed k - 1/2) * 2 * scale

/-! ### The simulation harness (runCoherenceSimulation) -/

/-- SimulationEventKind from the simulation module. -/
inductive SimulationEventKind
  | jitter
  | crosstalk
  | congestion
deriving DecidableEq, Repr

/-- SimulationEvent from the simulation module. -/
structure SimulationEvent where
  kind : SimulationEventKind
  startMs : ℚ
  durationMs : ℚ
  magnitude : ℚ
  label : Option String
deriving DecidableEq, Repr

/-- CoherenceSimulationConfig from the simulation module.  The seed is kept
as a natural number, matching the seed >>> 0 coercion in the Lcg
constructor. -/
structure CoherenceSimulationConfig where
  durationMs : ℚ
  stepMs : ℚ
  seed : Nat
  baseLatencyMs : ℚ
  baseJitterMs : ℚ
  baseErrRate : ℚ
  baseQueueDepth : ℚ
  baseQueueSlope : ℚ
  collapseMargin : ℚ
  stableWindowSteps : Nat
  coupling : CouplingParams
  coherence : CoherenceConfig
  events : List SimulationEvent
deriving DecidableEq, Repr

/-- FailureDiaryEntry from the simulation module. -/
structure FailureDiaryEntry where
  tMs : ℚ
  reason : String
  note : Option String
deriving DecidableEq, Repr

/-- The note attached to a collapse entry interpolates the collapse margin
into a string; the rational is rendered with toString (the JavaScript
number formatting differs, but no claim depends on the rendering). -/
def collapseNoteText (margin : ℚ) : String :=
  "margin dropped below " ++ toString margin

/-- One entry of the simulation trace. -/
structure TraceEntry where
  tMs : ℚ
  state : CoherenceState
  coupling : CouplingParams
deriving DecidableEq, Repr

/-- CoherenceSimulationSummary from the simulation module; optional fields
are Options. -/
structure CoherenceSimulationSummary where
  timeToStabilizeMs : Option ℚ
  overshootMax : ℚ
  ringingEvents : Nat
  couplingChangesPerMinute : ℚ
  horizonPredictionErrorMs : Option ℚ
  collapseAtMs : Option ℚ
deriving DecidableEq, Repr

/-- CoherenceSimulationResult from the simulation module. -/
structure CoherenceSimulationResult where
  summary : CoherenceSimulationSummary
  trace : List TraceEntry
  failures : List FailureDiaryEntry
deriving DecidableEq, Repr

/-- defaultSimulationConfig from the simulation module. -/
def defaultSimulationConfig : CoherenceSimulationConfig :=
  { durationMs := 60000
    stepMs := 200
    seed := 1337
    baseLatencyMs := 12
    baseJitterMs := 4
    baseErrRate := 1/500
    baseQueueDepth := 8
    baseQueueSlope := 0
    collapseMargin := 3/20
    stableWindowSteps := 5
    coupling := { batchSize := 64, concurrency := 8, redundancy := 1/10, paceMs := 1 }
    coherence :=
      { Hmin := 4
        maxDelta := ⟨some 16, some 2, some (1/10), some 5⟩
        floors := ⟨some 1, some 1, some 0, some 0⟩
        ceilings := ⟨some 256, some 64, some 1, some 50⟩ }
    events :=
      [ ⟨.jitter, 10000, 6000, 3/2, some "jitter burst"⟩
      , ⟨.crosstalk, 22000, 8000, 1/50, some "crosstalk burst"⟩
      , ⟨.congestion, 35000, 10000, 5/2, some "queue climb"⟩ ] }

/-- The mutable locals of the body of runCoherenceSimulation, carried across
loop iterations.  The trace and failures lists are most-recent-first. -/
structure SimState where
  rng : Nat
  hist : List Sample
  coupling : CouplingParams
  queueDepth : ℚ
  couplingChanges : Nat
  ringingEvents : Nat
  overshootMax : ℚ
  lastDeltaSignBatch : ℚ
  lastDeltaSignConc : ℚ
  collapseAtMs : Option ℚ
  lastPredictionMs : Option ℚ
  stableSteps : Nat
  timeToStabilizeMs : Option ℚ
  trace : List TraceEntry
  failures : List FailureDiaryEntry
deriving DecidableEq, Repr

/-- The events active at time tMs: start <= t < start + duration. -/
def activeEvents (events : List SimulationEvent) (tMs : ℚ) : List SimulationEvent :=
  events.filter fun e => decide (e.startMs ≤ tMs) && decide (tMs < e.startMs + e.durationMs)

/-- Sum of the magnitudes of the active events of one kind, mirroring the
accumulation loop over active events. -/
def sumBy (l : List SimulationEvent) (k : SimulationEventKind) : ℚ :=
  l.foldl (fun acc e => if e.kind = k then acc + e.magnitude else acc) 0

/-- The end of the last configured event: reduce of start + duration with
initial value 0. -/
def lastEventEnd (events : List SimulationEvent) : ℚ :=
  events.foldl (fun m e => max m (e.startMs + e.durationMs)) 0

/-- The field sample synthesized at time tMs (simulation loop body, lines
131 to 166).  The rng has already been advanced to its new state rng1. -/
def stepSample (cfg : CoherenceSimulationConfig) (tMs : ℚ) (s : SimState)
    (rng1 : Nat) : Sample :=
  let active := activeEvents cfg.events tMs
  let jitterScale := 1 + sumBy active .jitter
  let corrSpike := sumBy active .crosstalk
  let noise := ((rng1 : ℚ) / 4294967295 - 1/2) * 2 * (cfg.baseJitterMs * jitterScale * (1/5))
  let latencyP50 := max 1 (cfg.baseLatencyMs + noise)
  let jitter := cfg.baseJitterMs * jitterScale
  let slope := cfg.baseQueueSlope + sumBy active .congestion
  { t := tMs
    latencyP50 := latencyP50
    latencyP95 := latencyP50 + jitter * (9/5)
    latencyP99 := latencyP50 + jitter * 3
    errRate := clamp01 (cfg.baseErrRate + sumBy active .crosstalk)
    queueDepth := max 0 (s.queueDepth + slope * (cfg.stepMs / 1000))
    queueSlope := slope
    corrSpike := if 0 < corrSpike then some corrSpike else none }

/-- The history after sensing the synthesized sample (historySize 64, the
constructor default used by the harness). -/
def stepHist (cfg : CoherenceSimulationConfig) (tMs : ℚ) (s : SimState)
    (rng1 : Nat) : List Sample :=
  sense (stepSample cfg tMs s rng1) s.hist 64

/-- The CoherenceState estimated at time tMs. -/
def stepState (cfg : CoherenceSimulationConfig) (tMs : ℚ) (s : SimState)
    (rng1 : Nat) : CoherenceState :=
  estimate (stepHist cfg tMs s rng1)

/-- One iteration of the simulation loop body (lines 130 to 227). -/
def simStep (cfg : CoherenceSimulationConfig) (tMs : ℚ) (s : SimState) : SimState :=
  let rng1 := lcgStep s.rng
  let sample := stepSample cfg tMs s rng1
  let hist := stepHist cfg tMs s rng1
  let state := stepState cfg tMs s rng1
  let lastPredictionMs :=
    match state.H with
    | some h => if state.V < 0 then some (tMs + h * 1000) else s.lastPredictionMs
    | none => s.lastPredictionMs
  let collapseHit := decide (state.M < cfg.collapseMargin) && s.collapseAtMs.isNone
  let collapseAtMs := if collapseHit then some tMs else s.collapseAtMs
  let failures :=
    if collapseHit then
      ⟨tMs, "collapse", some (collapseNoteText cfg.collapseMargin)⟩ :: s.failures
    else s.failures
  let next := adapt cfg.coherence state s.coupling
  let batchDelta := next.batchSize - s.coupling.batchSize
  let concDelta := next.concurrency - s.coupling.concurrency
  let ringing1 :=
    if batchDelta ≠ 0 ∧ s.lastDeltaSignBatch ≠ 0 ∧ jsSign batchDelta ≠ s.lastDeltaSignBatch
    then s.ringingEvents + 1 else s.ringingEvents
  let lastSignBatch := if batchDelta ≠ 0 then jsSign batchDelta else s.lastDeltaSignBatch
  let ringing2 :=
    if concDelta ≠ 0 ∧ s.lastDeltaSignConc ≠ 0 ∧ jsSign concDelta ≠ s.lastDeltaSignConc
    then ringing1 + 1 else ringing1
  let lastSignConc := if concDelta ≠ 0 then jsSign concDelta else s.lastDeltaSignConc
  let couplingChanges :=
    if next = s.coupling then s.couplingChanges else s.couplingChanges + 1
  let overshootMax :=
    max s.overshootMax
      (max |next.batchSize - cfg.coupling.batchSize| |next.concurrency - cfg.coupling.concurrency|)
  let stab : Nat × Option ℚ :=
    if lastEventEnd cfg.events ≤ tMs ∧ s.timeToStabilizeMs = none then
      if hGeB state.H cfg.coherence.Hmin && decide (0 ≤ state.V) then
        let ss := s.stableSteps + 1
        if cfg.stableWindowSteps ≤ ss then (ss, some (tMs - lastEventEnd cfg.events))
        else (ss, none)
      else (0, none)
    else (s.stableSteps, s.timeToStabilizeMs)
  { rng := rng1
    hist := hist
    coupling := next
    queueDepth := sample.queueDepth
    couplingChanges := couplingChanges
    ringingEvents := ringing2
    overshootMax := overshootMax
    lastDeltaSignBatch := lastSignBatch
    lastDeltaSignConc := lastSignConc
    collapseAtMs := collapseAtMs
    lastPredictionMs := lastPredictionMs
    stableSteps := stab.1
    timeToStabilizeMs := stab.2
    trace := ⟨tMs, state, next⟩ :: s.trace
    failures := failures }

/-- The number of iterations of the simulation loop
for (tMs = 0; tMs <= durationMs; tMs += stepMs).  For a positive step and a
nonnegative duration this is floor(duration / step) + 1.  For a negative
duration the loop body never runs.  For stepMs <= 0 with a nonnegative
duration the source loop does not terminate; that divergent case is modelled
as zero iterations, and theorems quantifying over configurations carry the
hypothesis 0 < stepMs. -/
def numSteps (cfg : CoherenceSimulationConfig) : Nat :=
  if cfg.durationMs < 0 then 0
  else if cfg.stepMs ≤ 0 then 0
  else (cfg.durationMs / cfg.stepMs).floor.toNat + 1

/-- The initial values of the loop locals (lines 107 to 128). -/
def initSimState (cfg : CoherenceSimulationConfig) : SimState :=
  { rng := lcgInit cfg.seed
    hist := []
    coupling := cfg.coupling
    queueDepth := cfg.baseQueueDepth
    couplingChanges := 0
    ringingEvents := 0
    overshootMax := 0
    lastDeltaSignBatch := 0
    lastDeltaSignConc := 0
    collapseAtMs := none
    lastPredictionMs := none
    stableSteps := 0
    timeToStabilizeMs := none
    trace := []
    failures := [] }

/-- The loop state after all iterations of the simulation loop. -/
def simFinal (cfg : CoherenceSimulationConfig) : SimState :=
  (List.range (numSteps cfg)).foldl
    (fun (s : SimState) (i : Nat) => simStep cfg ((i : ℚ) * cfg.stepMs) s)
    (initSimState cfg)

/-- runCoherenceSimulation from the simulation module.  The configuration is
the fully merged configuration (the source merges caller overrides into
defaultSimulationConfig before the loop). -/
def runCoherenceSimulation (cfg : CoherenceSimulationConfig) : CoherenceSimulationResult :=
  let final := simFinal cfg
  let horizonPredictionErrorMs :=
    match final.collapseAtMs, final.lastPredictionMs with
    | some c, some p => some |p - c|
    | _, _ => none
  let failures :=
    if final.timeToStabilizeMs = none then
      ⟨cfg.durationMs, "unstable", some "did not stabilize"⟩ :: final.failures
    else final.failures
  let couplingChangesPerMinute :=
    if 0 < cfg.durationMs then ((final.couplingChanges : ℚ) / cfg.durationMs) * 60000 else 0
  { summary :=
      { timeToStabilizeMs := final.timeToStabilizeMs
        overshootMax := final.overshootMax
        ringingEvents := final.ringingEvents
        couplingChangesPerMinute := couplingChangesPerMinute
        horizonPredictionErrorMs := horizonPredictionErrorMs
        collapseAtMs := final.collapseAtMs }
    trace := final.trace.reverse
    failures := failures.reverse }

/-! ### Auxiliary predicates and concrete instances used by the theorems -/

/-- Scenario A of the specification: the default configuration with an
empty event list (duration 60000 ms and step 200 ms are the defaults). -/
def scenarioAConfig : CoherenceSimulationConfig :=
  { defaultSimulationConfig with events := [] }

/-- Whether a diary entry is a collapse entry. -/
def isCollapseEntry (e : FailureDiaryEntry) : Bool := e.reason == "collapse"

/-- When the floor is defined for a key, the value is at least the floor
(vacuously true for an absent floor). -/
def leOfDefined (f? : Option ℚ) (v : ℚ) : Bool :=
  match f? with
  | none => true
  | some f => decide (f ≤ v)

/-- When the ceiling is defined for a key, the value is at most the ceiling
(vacuously true for an absent ceiling). -/
def geOfDefined (c? : Option ℚ) (v : ℚ) : Bool :=
  match c? with
  | none => true
  | some c => decide (v ≤ c)

/-- A config used to refute the unconditional damping claim: every maxDelta
is defined (1 for every key), but the batchSize floor 100 is far from the
input parameters. -/
def cexDampCfg : CoherenceConfig :=
  { Hmin := 1
    maxDelta := ⟨some 1, some 1, some 1, some 1⟩
    floors := ⟨some 100, none, none, none⟩
    ceilings := ⟨none, none, none, none⟩ }

/-- A state with an infinite horizon (no couple-down). -/
def cexCalmState : CoherenceState := ⟨1, 0, 1, none⟩

/-- Input parameters far below the batchSize floor of cexDampCfg. -/
def cexLowParams : CouplingParams := ⟨0, 0, 0, 0⟩

/-- An invalid configuration: the batchSize floor 10 exceeds the batchSize
ceiling 1. -/
def cexInvalidCfg : CoherenceConfig :=
  { Hmin := 1
    maxDelta := ⟨some 1, some 1, some 1, some 1⟩
    floors := ⟨some 10, none, none, none⟩
    ceilings := ⟨some 1, none, none, none⟩ }

/-- The collapse-latch loop invariant: before any breach the failure list
holds no collapse entry and every traced margin is at or above the collapse
margin; after latching at time t the failure list holds exactly one
collapse entry, recorded at t, the trace splits at the breach step, and
every step before the breach (the suffix in the most-recent-first
representation) was at or above the margin. -/
def latchInv (margin : ℚ) (note? : Option String) (ca : Option ℚ)
    (failures : List FailureDiaryEntry) (trace : List TraceEntry) : Prop :=
  match ca with
  | none =>
    failures.countP isCollapseEntry = 0 ∧ ∀ x ∈ trace, margin ≤ x.state.M
  | some t =>
    failures.filter isCollapseEntry = [⟨t, "collapse", note?⟩] ∧
    ∃ l2 xe l1, trace = l2 ++ xe :: l1 ∧ xe.tMs = t ∧ xe.state.M < margin ∧
      ∀ x ∈ l1, margin ≤ x.state.M

/-- A sample used by concrete witnesses. -/
def witnessSample : Sample := ⟨0, 1, 1, 1, 0, 0, 0, none⟩

/-! ### Basic lemmas -/

theorem clamp01_nonneg (x : ℚ) : 0 ≤ clamp01 x := le_max_left 0 _

theorem clamp01_le_one (x : ℚ) : clamp01 x ≤ 1 :=
  max_le (by norm_num) (min_le_left 1 x)

theorem boundField_mem (v f c : ℚ) (h : f ≤ c) :
    f ≤ boundField v (some f) (some c) ∧ boundField v (some f) (some c) ≤ c :=
  ⟨le_min h (le_max_left f v), min_le_left c _⟩

theorem signedScaleRange (x scale : ℚ) (h0 : 0 ≤ x) (h1 : x ≤ 1) (hs : 0 ≤ scale) :
    -scale ≤ (x - 1/2) * 2 * scale ∧ (x - 1/2) * 2 * scale ≤ scale := by
  constructor <;> nlinarith

theorem dampField_abs_le (p n lim : ℚ) (h : 0 ≤ lim) :
    |dampField p n (some lim) - p| ≤ lim := by
  simp only [dampField]
  split
  · simp only [jsSign]
    split
    · rw [show p + 1 * lim - p = lim by ring, abs_of_nonneg h]
    · split
      · rw [show p + -1 * lim - p = -lim by ring, abs_neg, abs_of_nonneg h]
      · rw [show p + 0 * lim - p = 0 by ring, abs_zero]; exact h
  · rename_i hle
    exact le_of_not_lt hle

theorem boundField_abs_le (v p : ℚ) (f? c? : Option ℚ)
    (hl : leOfDefined f? p = true) (hh : geOfDefined c? p = true) :
    |boundField v f? c? - p| ≤ |v - p| := by
  have hv1 : -(|v - p|) ≤ v - p := neg_abs_le _
  have hv2 : v - p ≤ |v - p| := le_abs_self _
  rcases f? with _ | f <;> rcases c? with _ | c <;>
    simp only [boundField, leOfDefined, geOfDefined, decide_eq_true_eq] at hl hh ⊢
  · exact le_refl _
  · rw [abs_le]
    refine ⟨?_, ?_⟩
    · have : p - |v - p| ≤ min c v := le_min (by linarith) (by linarith)
      linarith
    · have : min c v ≤ v := min_le_right c v
      linarith
  · rw [abs_le]
    refine ⟨?_, ?_⟩
    · have : v ≤ max f v := le_max_right f v
      linarith
    · have : max f v ≤ p + |v - p| := max_le (by linarith) (by linarith)
      linarith
  · rw [abs_le]
    refine ⟨?_, ?_⟩
    · have : p - |v - p| ≤ min c (max f v) :=
        le_min (by linarith) (le_trans (by linarith) (le_max_right f v))
      linarith
    · have h1 : max f v ≤ p + |v - p| := max_le (by linarith) (by linarith)
      have h2 : min c (max f v) ≤ max f v := min_le_right _ _
      linarith

/-! ### Claim theorems -/

/-- Claim C8: with fewer than two samples in the history, estimate returns
exactly the neutral default state M = 1, V = 0, R = 1, H = Infinity (none).
The estimator reads no configuration field, so this holds for every
config. -/
theorem estimate_warmup_default (history : List Sample) (h : history.length < 2) :
    estimate history = ⟨1, 0, 1, none⟩ := by
  match history with
  | [] => rfl
  | [_] => rfl
  | _ :: _ :: t => simp only [List.length_cons] at h; omega

/-- Witness for estimate_warmup_default at the empty history. -/
theorem estimate_warmup_default_witness :
    ([] : List Sample).length < 2 ∧ estimate ([] : List Sample) = ⟨1, 0, 1, none⟩ :=
  ⟨by decide, estimate_warmup_default [] (by decide)⟩

/-- Claim C10: for histories of length at least two, estimate depends only
on the two most recent samples: two histories agreeing on their two most
recent samples b (latest) and a (previous) yield equal coherence states,
whatever the earlier samples r1 and r2 are.  The history is stored
most-recent-first, so b and a head the list; the estimator reads no
configuration field, so equal configs are immaterial. -/
theorem estimate_depends_on_last_two (b a : Sample) (r1 r2 : List Sample) :
    estimate (b :: a :: r1) = estimate (b :: a :: r2) := rfl

/-- Claim C7: for every history of length at least two, the estimated state
has M and R inside the unit interval, and the horizon H is Infinity (none)
exactly when the drift V is nonnegative; in particular H is finite whenever
V < 0. -/
theorem estimate_invariants (history : List Sample) (h : 2 ≤ history.length) :
    0 ≤ (estimate history).M ∧ (estimate history).M ≤ 1 ∧
    0 ≤ (estimate history).R ∧ (estimate history).R ≤ 1 ∧
    ((estimate history).H = none ↔ 0 ≤ (estimate history).V) := by
  match history with
  | [] => simp at h
  | [_] => simp at h
  | b :: a :: t =>
    refine ⟨clamp01_nonneg _, clamp01_le_one _, clamp01_nonneg _, clamp01_le_one _, ?_⟩
    have hH : (estimate (b :: a :: t)).H
        = (if (estimate (b :: a :: t)).V < 0 then
            some (((estimate (b :: a :: t)).M / max (1/1000000) |(estimate (b :: a :: t)).V|) *
              max (1/5) (estimate (b :: a :: t)).R)
          else none) := rfl
    rw [hH]
    by_cases hv : (estimate (b :: a :: t)).V < 0
    · simp only [if_pos hv]
      constructor
      · intro hs; exact absurd hs (by simp)
      · intro h0; exact absurd hv (not_lt.mpr h0)
    · simp only [if_neg hv]
      simp [not_lt.mp hv]

/-- Witness for estimate_invariants at a two sample history. -/
theorem estimate_invariants_witness :
    2 ≤ ([witnessSample, witnessSample] : List Sample).length ∧
    (0 ≤ (estimate [witnessSample, witnessSample]).M ∧
     (estimate [witnessSample, witnessSample]).M ≤ 1 ∧
     0 ≤ (estimate [witnessSample, witnessSample]).R ∧
     (estimate [witnessSample, witnessSample]).R ≤ 1 ∧
     ((estimate [witnessSample, witnessSample]).H = none ↔
       0 ≤ (estimate [witnessSample, witnessSample]).V)) :=
  ⟨by decide, estimate_invariants [witnessSample, witnessSample] (by decide)⟩

/-- Claim C2: for a valid config with floors and ceilings defined for every
parameter and each floor at most its ceiling, every field of the adapt
output lies inside the corresponding [floor, ceiling] interval, for every
state and every input parameters. -/
theorem adapt_within_floor_ceiling (cfg : CoherenceConfig) (state : CoherenceState)
    (c : CouplingParams) (fB cB fC cC fR cR fP cP : ℚ)
    (hfB : cfg.floors.batchSize = some fB) (hcB : cfg.ceilings.batchSize = some cB)
    (hB : fB ≤ cB)
    (hfC : cfg.floors.concurrency = some fC) (hcC : cfg.ceilings.concurrency = some cC)
    (hC : fC ≤ cC)
    (hfR : cfg.floors.redundancy = some fR) (hcR : cfg.ceilings.redundancy = some cR)
    (hR : fR ≤ cR)
    (hfP : cfg.floors.paceMs = some fP) (hcP : cfg.ceilings.paceMs = some cP)
    (hP : fP ≤ cP) :
    (fB ≤ (adapt cfg state c).batchSize ∧ (adapt cfg state c).batchSize ≤ cB) ∧
    (fC ≤ (adapt cfg state c).concurrency ∧ (adapt cfg state c).concurrency ≤ cC) ∧
    (fR ≤ (adapt cfg state c).redundancy ∧ (adapt cfg state c).redundancy ≤ cR) ∧
    (fP ≤ (adapt cfg state c).paceMs ∧ (adapt cfg state c).paceMs ≤ cP) := by
  simp only [adapt, bound]
  rw [hfB, hcB, hfC, hcC, hfR, hcR, hfP, hcP]
  exact ⟨boundField_mem _ _ _ hB, boundField_mem _ _ _ hC,
    boundField_mem _ _ _ hR, boundField_mem _ _ _ hP⟩

/-- Witness for adapt_within_floor_ceiling at the default coherence config
and baseline coupling. -/
theorem adapt_within_floor_ceiling_witness :
    (1:ℚ) ≤ 256 ∧
    (((1:ℚ) ≤ (adapt defaultSimulationConfig.coherence cexCalmState
        defaultSimulationConfig.coupling).batchSize ∧
      (adapt defaultSimulationConfig.coherence cexCalmState
        defaultSimulationConfig.coupling).batchSize ≤ 256) ∧
     ((1:ℚ) ≤ (adapt defaultSimulationConfig.coherence cexCalmState
        defaultSimulationConfig.coupling).concurrency ∧
      (adapt defaultSimulationConfig.coherence cexCalmState
        defaultSimulationConfig.coupling).concurrency ≤ 64) ∧
     ((0:ℚ) ≤ (adapt defaultSimulationConfig.coherence cexCalmState
        defaultSimulationConfig.coupling).redundancy ∧
      (adapt defaultSimulationConfig.coherence cexCalmState
        defaultSimulationConfig.coupling).redundancy ≤ 1) ∧
     ((0:ℚ) ≤ (adapt defaultSimulationConfig.coherence cexCalmState
        defaultSimulationConfig.coupling).paceMs ∧
      (adapt defaultSimulationConfig.coherence cexCalmState
        defaultSimulationConfig.coupling).paceMs ≤ 50)) :=
  ⟨by norm_num,
   adapt_within_floor_ceiling defaultSimulationConfig.coherence cexCalmState
     defaultSimulationConfig.coupling 1 256 1 64 0 1 0 50
     rfl rfl (by norm_num) rfl rfl (by norm_num) rfl rfl (by norm_num)
     rfl rfl (by norm_num)⟩

/-- Counterexample to claim C1 as stated: with every maxDelta defined (all
equal to 1) but input parameters below the configured batchSize floor, the
bounding pass that runs after damping moves batchSize from 0 to the floor
100, so the output differs from the input by 100, far more than the
maxDelta of 1.  Damping alone is respected; the floor/ceiling clamp is not
subject to it. -/
theorem adapt_maxDelta_counterexample :
    cexDampCfg.maxDelta.batchSize = some 1 ∧
    cexDampCfg.maxDelta.concurrency = some 1 ∧
    cexDampCfg.maxDelta.redundancy = some 1 ∧
    cexDampCfg.maxDelta.paceMs = some 1 ∧
    (adapt cexDampCfg cexCalmState cexLowParams).batchSize = 100 ∧
    ¬ |(adapt cexDampCfg cexCalmState cexLowParams).batchSize - cexLowParams.batchSize| ≤ 1 := by
  with_unfolding_all decide

/-- Claim C1 amended: when every maxDelta is defined and nonnegative and
the input parameters already respect every defined floor and ceiling, each
field of the adapt output differs from the input by at most that field's
maxDelta. -/
theorem adapt_abs_diff_le_maxDelta (cfg : CoherenceConfig) (state : CoherenceState)
    (c : CouplingParams) (mB mC mR mP : ℚ)
    (hmB : cfg.maxDelta.batchSize = some mB) (hB0 : 0 ≤ mB)
    (hmC : cfg.maxDelta.concurrency = some mC) (hC0 : 0 ≤ mC)
    (hmR : cfg.maxDelta.redundancy = some mR) (hR0 : 0 ≤ mR)
    (hmP : cfg.maxDelta.paceMs = some mP) (hP0 : 0 ≤ mP)
    (hloB : leOfDefined cfg.floors.batchSize c.batchSize = true)
    (hhiB : geOfDefined cfg.ceilings.batchSize c.batchSize = true)
    (hloC : leOfDefined cfg.floors.concurrency c.concurrency = true)
    (hhiC : geOfDefined cfg.ceilings.concurrency c.concurrency = true)
    (hloR : leOfDefined cfg.floors.redundancy c.redundancy = true)
    (hhiR : geOfDefined cfg.ceilings.redundancy c.redundancy = true)
    (hloP : leOfDefined cfg.floors.paceMs c.paceMs = true)
    (hhiP : geOfDefined cfg.ceilings.paceMs c.paceMs = true) :
    |(adapt cfg state c).batchSize - c.batchSize| ≤ mB ∧
    |(adapt cfg state c).concurrency - c.concurrency| ≤ mC ∧
    |(adapt cfg state c).redundancy - c.redundancy| ≤ mR ∧
    |(adapt cfg state c).paceMs - c.paceMs| ≤ mP := by
  simp only [adapt, bound, damp]
  rw [hmB, hmC, hmR, hmP]
  exact ⟨le_trans (boundField_abs_le _ _ _ _ hloB hhiB) (dampField_abs_le _ _ _ hB0),
    le_trans (boundField_abs_le _ _ _ _ hloC hhiC) (dampField_abs_le _ _ _ hC0),
    le_trans (boundField_abs_le _ _ _ _ hloR hhiR) (dampField_abs_le _ _ _ hR0),
    le_trans (boundField_abs_le _ _ _ _ hloP hhiP) (dampField_abs_le _ _ _ hP0)⟩

/-- Witness for adapt_abs_diff_le_maxDelta at the default coherence config
and baseline coupling. -/
theorem adapt_abs_diff_le_maxDelta_witness :
    (0:ℚ) ≤ 16 ∧
    (|(adapt defaultSimulationConfig.coherence cexCalmState
        defaultSimulationConfig.coupling).batchSize -
        defaultSimulationConfig.coupling.batchSize| ≤ 16 ∧
     |(adapt defaultSimulationConfig.coherence cexCalmState
        defaultSimulationConfig.coupling).concurrency -
        defaultSimulationConfig.coupling.concurrency| ≤ 2 ∧
     |(adapt defaultSimulationConfig.coherence cexCalmState
        defaultSimulationConfig.coupling).redundancy -
        defaultSimulationConfig.coupling.redundancy| ≤ 1/10 ∧
     |(adapt defaultSimulationConfig.coherence cexCalmState
        defaultSimulationConfig.coupling).paceMs -
        defaultSimulationConfig.coupling.paceMs| ≤ 5) :=
  ⟨by norm_num,
   adapt_abs_diff_le_maxDelta defaultSimulationConfig.coherence cexCalmState
     defaultSimulationConfig.coupling 16 2 (1/10) 5
     rfl (by norm_num) rfl (by norm_num) rfl (by norm_num) rfl (by norm_num)
     (by with_unfolding_all decide) (by with_unfolding_all decide)
     (by with_unfolding_all decide) (by with_unfolding_all decide)
     (by with_unfolding_all decide) (by with_unfolding_all decide)
     (by with_unfolding_all decide) (by with_unfolding_all decide)⟩

/-- Counterexample to claim C4 as stated: the config with batchSize floor
10 above batchSize ceiling 1 is invalid, yet construction succeeds (the
constructor body stores the config and performs no validation). -/
theorem createCoherenceLoop_accepts_invalid :
    configInvalid cexInvalidCfg = true ∧
    createCoherenceLoop cexInvalidCfg 64 = .ok ⟨cexInvalidCfg, 64, []⟩ :=
  ⟨by decide, rfl⟩

/-- Claim C4 amended: construction never rejects any configuration, valid
or invalid; the constructor performs no validation and always returns the
freshly built loop state. -/
theorem createCoherenceLoop_never_rejects (cfg : CoherenceConfig) (n : Nat) :
    createCoherenceLoop cfg n = .ok ⟨cfg, n, []⟩ := rfl

/-- Counterexample to claim C5 as stated: from seed 653637408 the first
call of next() returns exactly 1 (the updated state is 0xffffffff and the
division is by 0xffffffff), so next() is not always below 1. -/
theorem lcgValue_reaches_one :
    lcgValue 653637408 0 = 1 ∧ ¬ lcgValue 653637408 0 < 1 := by
  with_unfolding_all decide

/-- Claim C5 amended: the generator follows exactly the recurrence
state = (1664525 * state + 1013904223) mod 2^32 with next() equal to
state / (2^32 - 1); every next() value lies in the closed interval [0, 1]
(the right endpoint is attained, see the counterexample), and for every
nonnegative scale every nextSigned(scale) value lies in
[-scale, scale]. -/
theorem lcg_recurrence_and_bounds (seed k : Nat) (scale : ℚ) (h : 0 ≤ scale) :
    lcgState seed (k + 1) = (1664525 * lcgState seed k + 1013904223) % 2 ^ 32 ∧
    0 ≤ lcgValue seed k ∧ lcgValue seed k ≤ 1 ∧
    -scale ≤ lcgSigned seed k scale ∧ lcgSigned seed k scale ≤ scale := by
  have hrec : lcgState seed (k + 1) = lcgStep (lcgState seed k) :=
    Function.iterate_succ_apply' lcgStep k (lcgInit seed)
  have hlt : lcgState seed (k + 1) < 2 ^ 32 := by
    rw [hrec, lcgStep]
    exact Nat.mod_lt _ (by norm_num)
  have hv0 : 0 ≤ lcgValue seed k :=
    div_nonneg (Nat.cast_nonneg _) (by norm_num)
  have hv1 : lcgValue seed k ≤ 1 := by
    unfold lcgValue
    rw [div_le_one (by norm_num)]
    have : (lcgState seed (k + 1) : ℚ) ≤ ((4294967295 : Nat) : ℚ) :=
      Nat.cast_le.mpr (by omega)
    simpa using this
  exact ⟨hrec, hv0, hv1, (signedScaleRange _ _ hv0 hv1 h).1,
    (signedScaleRange _ _ hv0 hv1 h).2⟩

/-- Witness for lcg_recurrence_and_bounds at seed 0, call 0, scale 1. -/
theorem lcg_recurrence_and_bounds_witness :
    (0:ℚ) ≤ 1 ∧
    (lcgState 0 1 = (1664525 * lcgState 0 0 + 1013904223) % 2 ^ 32 ∧
     0 ≤ lcgValue 0 0 ∧ lcgValue 0 0 ≤ 1 ∧
     -(1:ℚ) ≤ lcgSigned 0 0 1 ∧ lcgSigned 0 0 1 ≤ 1) :=
  ⟨by norm_num, lcg_recurrence_and_bounds 0 0 1 (by norm_num)⟩

/-- Claim C3: the simulation is deterministic.  The embedding is a pure
function of the configuration: the only randomness source is the LCG,
seeded from config.seed and threaded explicitly, so two runs with
identical configurations produce identical summaries, traces and failure
diaries. -/
theorem runCoherenceSimulation_deterministic (c1 c2 : CoherenceSimulationConfig)
    (h : c1 = c2) :
    (runCoherenceSimulation c1).summary = (runCoherenceSimulation c2).summary ∧
    (runCoherenceSimulation c1).trace = (runCoherenceSimulation c2).trace ∧
    (runCoherenceSimulation c1).failures = (runCoherenceSimulation c2).failures := by
  subst h
  exact ⟨rfl, rfl, rfl⟩

/-- Witness for runCoherenceSimulation_deterministic at the default
configuration. -/
theorem runCoherenceSimulation_deterministic_witness :
    defaultSimulationConfig = defaultSimulationConfig ∧
    ((runCoherenceSimulation defaultSimulationConfig).summary =
      (runCoherenceSimulation defaultSimulationConfig).summary ∧
     (runCoherenceSimulation defaultSimulationConfig).trace =
      (runCoherenceSimulation defaultSimulationConfig).trace ∧
     (runCoherenceSimulation defaultSimulationConfig).failures =
      (runCoherenceSimulation defaultSimulationConfig).failures) :=
  ⟨rfl, runCoherenceSimulation_deterministic defaultSimulationConfig
    defaultSimulationConfig rfl⟩

set_option maxRecDepth 100000 in
/-- Claim C9: scenario A (empty event list, duration 60000 ms, step 200 ms,
all other fields the defaults).  Every traced step has hLtB state.H Hmin
false, which is exactly the couple-down condition of adapt, so the
couple-down branch is never taken; the coupling stays at its baseline at
every step; and time-to-stabilize is recorded as 800 ms into the 60000 ms
run, the earliest value the five step stable window permits once ticks
begin. -/
theorem scenarioA_no_couple_down :
    (∀ e ∈ (runCoherenceSimulation scenarioAConfig).trace,
      hLtB e.state.H scenarioAConfig.coherence.Hmin = false ∧
      e.coupling = scenarioAConfig.coupling) ∧
    (runCoherenceSimulation scenarioAConfig).summary.timeToStabilizeMs = some 800 := by
  with_unfolding_all decide

/-! ### The collapse latch (claim C6) -/

theorem simStep_collapseAtMs (cfg : CoherenceSimulationConfig) (tMs : ℚ) (s : SimState) :
    (simStep cfg tMs s).collapseAtMs =
      if decide ((stepState cfg tMs s (lcgStep s.rng)).M < cfg.collapseMargin) &&
          s.collapseAtMs.isNone
      then some tMs else s.collapseAtMs := rfl

theorem simStep_failures (cfg : CoherenceSimulationConfig) (tMs : ℚ) (s : SimState) :
    (simStep cfg tMs s).failures =
      if decide ((stepState cfg tMs s (lcgStep s.rng)).M < cfg.collapseMargin) &&
          s.collapseAtMs.isNone
      then ⟨tMs, "collapse", some (collapseNoteText cfg.collapseMargin)⟩ :: s.failures
      else s.failures := rfl

theorem simStep_trace (cfg : CoherenceSimulationConfig) (tMs : ℚ) (s : SimState) :
    (simStep cfg tMs s).trace =
      ⟨tMs, stepState cfg tMs s (lcgStep s.rng),
        adapt cfg.coherence (stepState cfg tMs s (lcgStep s.rng)) s.coupling⟩ :: s.trace := rfl

/-- One simulation step preserves the collapse-latch invariant. -/
theorem latchInv_step (cfg : CoherenceSimulationConfig) (tMs : ℚ) (s : SimState)
    (h : latchInv cfg.collapseMargin (some (collapseNoteText cfg.collapseMargin))
      s.collapseAtMs s.failures s.trace) :
    latchInv cfg.collapseMargin (some (collapseNoteText cfg.collapseMargin))
      (simStep cfg tMs s).collapseAtMs (simStep cfg tMs s).failures
      (simStep cfg tMs s).trace := by
  rcases hca : s.collapseAtMs with _ | t
  · rw [hca] at h
    simp only [latchInv] at h
    obtain ⟨hcount, htr⟩ := h
    have hfilz : s.failures.filter isCollapseEntry = [] := by
      rw [List.filter_eq_nil_iff]
      intro a ha hpa
      exact (List.countP_eq_zero.mp hcount a ha) hpa
    by_cases hM : (stepState cfg tMs s (lcgStep s.rng)).M < cfg.collapseMargin
    · have e1 : (simStep cfg tMs s).collapseAtMs = some tMs := by
        rw [simStep_collapseAtMs, hca]
        simp [hM]
      have e2 : (simStep cfg tMs s).failures =
          ⟨tMs, "collapse", some (collapseNoteText cfg.collapseMargin)⟩ :: s.failures := by
        rw [simStep_failures, hca]
        simp [hM]
      rw [e1, e2, simStep_trace]
      simp only [latchInv]
      refine ⟨?_, [], _, s.trace, rfl, rfl, hM, htr⟩
      rw [List.filter_cons_of_pos (by rfl), hfilz]
    · have e1 : (simStep cfg tMs s).collapseAtMs = none := by
        rw [simStep_collapseAtMs, hca]
        simp [hM]
      have e2 : (simStep cfg tMs s).failures = s.failures := by
        rw [simStep_failures, hca]
        simp [hM]
      rw [e1, e2, simStep_trace]
      simp only [latchInv]
      refine ⟨hcount, ?_⟩
      intro x hx
      rcases List.mem_cons.mp hx with h1 | h2
      · subst h1
        exact le_of_not_lt hM
      · exact htr x h2
  · have e1 : (simStep cfg tMs s).collapseAtMs = some t := by
      rw [simStep_collapseAtMs, hca]
      simp
    have e2 : (simStep cfg tMs s).failures = s.failures := by
      rw [simStep_failures, hca]
      simp
    rw [e1, e2, simStep_trace]
    rw [hca] at h
    simp only [latchInv] at h ⊢
    obtain ⟨hf, l2, xe, l1, hsplit, hxt, hxm, hpre⟩ := h
    refine ⟨hf,
      (⟨tMs, stepState cfg tMs s (lcgStep s.rng),
        adapt cfg.coherence (stepState cfg tMs s (lcgStep s.rng)) s.coupling⟩ :
        TraceEntry) :: l2, xe, l1, ?_, hxt, hxm, hpre⟩
    rw [hsplit]
    rfl

set_option maxRecDepth 100000 in
/-- The collapse-latch invariant holds after folding any list of steps. -/
theorem latchInv_fold (cfg : CoherenceSimulationConfig) (l : List Nat) (s : SimState)
    (h : latchInv cfg.collapseMargin (some (collapseNoteText cfg.collapseMargin))
      s.collapseAtMs s.failures s.trace) :
    latchInv cfg.collapseMargin (some (collapseNoteText cfg.collapseMargin))
      ((l.foldl (fun (s2 : SimState) (i : Nat) => simStep cfg ((i : ℚ) * cfg.stepMs) s2) s)).collapseAtMs
      ((l.foldl (fun (s2 : SimState) (i : Nat) => simStep cfg ((i : ℚ) * cfg.stepMs) s2) s)).failures
      ((l.foldl (fun (s2 : SimState) (i : Nat) => simStep cfg ((i : ℚ) * cfg.stepMs) s2) s)).trace := by
  induction l generalizing s with
  | nil => exact h
  | cons i tl ih =>
    rw [List.foldl_cons]
    exact ih (simStep cfg ((i : ℚ) * cfg.stepMs) s)
      (latchInv_step cfg ((i : ℚ) * cfg.stepMs) s h)

set_option maxRecDepth 100000 in
/-- The collapse-latch invariant at the end of the run. -/
theorem latchInv_simFinal (cfg : CoherenceSimulationConfig) :
    latchInv cfg.collapseMargin (some (collapseNoteText cfg.collapseMargin))
      (simFinal cfg).collapseAtMs (simFinal cfg).failures (simFinal cfg).trace := by
  have hinit : latchInv cfg.collapseMargin (some (collapseNoteText cfg.collapseMargin))
      (initSimState cfg).collapseAtMs (initSimState cfg).failures
      (initSimState cfg).trace := by
    simp [latchInv, initSimState]
  unfold simFinal
  exact latchInv_fold cfg (List.range (numSteps cfg)) (initSimState cfg) hinit

theorem run_failures_eq (cfg : CoherenceSimulationConfig) :
    (runCoherenceSimulation cfg).failures =
      (if (simFinal cfg).timeToStabilizeMs = none then
        ⟨cfg.durationMs, "unstable", some "did not stabilize"⟩ :: (simFinal cfg).failures
      else (simFinal cfg).failures).reverse := rfl

theorem run_trace_eq (cfg : CoherenceSimulationConfig) :
    (runCoherenceSimulation cfg).trace = (simFinal cfg).trace.reverse := rfl

/-- Claim C6: for every config (with a positive step, the domain on which
the source loop terminates) the failure diary of a run contains at most one
collapse entry, and any collapse entry is recorded at the first traced step
whose margin is below collapseMargin: the trace splits as l1 ++ xe :: l2
with the breach step xe carrying the entry's timestamp and every earlier
step l1 at or above the margin. -/
theorem collapse_latch_once_first_breach (cfg : CoherenceSimulationConfig)
    (hstep : 0 < cfg.stepMs) :
    (runCoherenceSimulation cfg).failures.countP isCollapseEntry ≤ 1 ∧
    ∀ e ∈ (runCoherenceSimulation cfg).failures, isCollapseEntry e = true →
      ∃ l1 xe l2, (runCoherenceSimulation cfg).trace = l1 ++ xe :: l2 ∧
        xe.tMs = e.tMs ∧ xe.state.M < cfg.collapseMargin ∧
        ∀ x ∈ l1, cfg.collapseMargin ≤ x.state.M := by
  have _ := hstep
  have hinv := latchInv_simFinal cfg
  rw [run_failures_eq, run_trace_eq]
  have hufalse : isCollapseEntry ⟨cfg.durationMs, "unstable", some "did not stabilize"⟩ = false := by
    rfl
  set fs := (if (simFinal cfg).timeToStabilizeMs = none then
      ⟨cfg.durationMs, "unstable", some "did not stabilize"⟩ :: (simFinal cfg).failures
    else (simFinal cfg).failures) with hfs
  have hfilter_fs : fs.filter isCollapseEntry = (simFinal cfg).failures.filter isCollapseEntry := by
    rw [hfs]
    split
    · rw [List.filter_cons_of_neg (by rw [hufalse]; exact Bool.false_ne_true)]
    · rfl
  rcases hca : (simFinal cfg).collapseAtMs with _ | t
  · rw [hca] at hinv
    simp only [latchInv] at hinv
    obtain ⟨hcount, htr⟩ := hinv
    have hzero : fs.filter isCollapseEntry = [] := by
      rw [hfilter_fs, List.filter_eq_nil_iff]
      intro a ha hpa
      exact (List.countP_eq_zero.mp hcount a ha) hpa
    constructor
    · rw [List.countP_eq_length_filter, List.filter_reverse, hzero]
      simp
    · intro e he hpe
      exfalso
      have he2 : e ∈ fs := List.mem_reverse.mp he
      have : e ∈ fs.filter isCollapseEntry := List.mem_filter.mpr ⟨he2, hpe⟩
      rw [hzero] at this
      exact List.not_mem_nil e this
  · rw [hca] at hinv
    simp only [latchInv] at hinv
    obtain ⟨hf, l2, xe, l1, hsplit, hxt, hxm, hpre⟩ := hinv
    have hone : fs.filter isCollapseEntry =
        [⟨t, "collapse", some (collapseNoteText cfg.collapseMargin)⟩] := by
      rw [hfilter_fs, hf]
    constructor
    · rw [List.countP_eq_length_filter, List.filter_reverse, hone]
      simp
    · intro e he hpe
      have he2 : e ∈ fs := List.mem_reverse.mp he
      have hmem : e ∈ fs.filter isCollapseEntry := List.mem_filter.mpr ⟨he2, hpe⟩
      rw [hone, List.mem_singleton] at hmem
      refine ⟨l1.reverse, xe, l2.reverse, ?_, ?_, hxm, ?_⟩
      · rw [hsplit]
        simp [List.reverse_append]
      · rw [hmem, hxt]
      · intro x hx
        exact hpre x (List.mem_reverse.mp hx)

/-- Witness for collapse_latch_once_first_breach at the default
configuration. -/
theorem collapse_latch_once_first_breach_witness :
    (0:ℚ) < defaultSimulationConfig.stepMs ∧
    ((runCoherenceSimulation defaultSimulationConfig).failures.countP isCollapseEntry ≤ 1 ∧
     ∀ e ∈ (runCoherenceSimulation defaultSimulationConfig).failures,
       isCollapseEntry e = true →
       ∃ l1 xe l2, (runCoherenceSimulation defaultSimulationConfig).trace = l1 ++ xe :: l2 ∧
         xe.tMs = e.tMs ∧ xe.state.M < defaultSimulationConfig.collapseMargin ∧
         ∀ x ∈ l1, defaultSimulationConfig.collapseMargin ≤ x.state.M) :=
  ⟨by with_unfolding_all decide,
   collapse_latch_once_first_breach defaultSimulationConfig (by with_unfolding_all decide)⟩

end Coherence
